import Mathlib

/-!
Verification of the wasmCloud control-plane core against its source:

* `crates/host/src/wasmbus/links.rs` — the Link Registry (`Links`,
  `LinkKey`, `Value`, `insert`, `remove`, `iter`).
* `crates/wash-lib/src/cli/start.rs` — `handle_start_provider`, the
  placement & confirmation flow for starting a provider.
* `crates/wash-lib/src/cli/scale.rs` — `handle_scale_actor` (the timeout
  selection part that is in scope here).

The embedding is shallow: Rust data types become Lean structures, the
`HashMap<LinkKey, HashSet<Value>>` becomes an association list with
unique keys whose slot collections are duplicate-free lists, and the
async control flow of `handle_start_provider` becomes a pure function
from an environment of oracles (transport, filesystem, resolver) to a
result together with a trace of the externally visible actions it
performed, in program order.
-/

namespace Wasmcloud

/-- A WIT interface identifier (`WitInterface` is a `String` alias in the
control-interface crate). -/
abbrev WitInterface := String

/-- Embedding of `InterfaceLinkDefinition` (from `wasmcloud_control_interface`).
Only the fields the registry reads are modelled plus `target`, a
representative non-key field, so that two links can differ outside the
identity 4-tuple; the remaining config fields behave exactly like `target`
for equality purposes and are omitted. -/
structure InterfaceLinkDefinition where
  source_id : String
  target : String
  name : String
  wit_namespace : String
  wit_package : String
  interfaces : List WitInterface
deriving DecidableEq, Repr

/-- Embedding of `LinkKey` (links.rs:9-58).  In Rust the key wraps the whole
link, but its `PartialEq` and `Hash` implementations read only the four
identity fields, and the `HashMap` behaviour depends only on those two
implementations; the faithful quotient is therefore the 4-tuple itself.
`LinkKey::new` (construction from the four raw strings, links.rs:48) and
conversion from a full link both land in this type. -/
structure LinkKey where
  source_id : String
  name : String
  wit_namespace : String
  wit_package : String
deriving DecidableEq, Repr

/-- `From<Arc<InterfaceLinkDefinition>> for LinkKey`: project the identity
fields of a link. -/
def LinkKey.ofLink (l : InterfaceLinkDefinition) : LinkKey :=
  ⟨l.source_id, l.name, l.wit_namespace, l.wit_package⟩

/-- `LinkKey::new` (links.rs:48-57). -/
def LinkKey.new (source_id name wit_namespace wit_package : String) : LinkKey :=
  ⟨source_id, name, wit_namespace, wit_package⟩

/-- Embedding of `Value` (links.rs:60-64): a stored link together with its
interface set (`BTreeSet<WitInterface>`, embedded as `Finset`). -/
structure Value where
  link : InterfaceLinkDefinition
  interfaces : Finset WitInterface
deriving DecidableEq

/-- `From<Arc<InterfaceLinkDefinition>> for Value` (links.rs:66-71): the
interface set is derived from the link's declared interface list. -/
def Value.ofLink (l : InterfaceLinkDefinition) : Value :=
  ⟨l, l.interfaces.toFinset⟩

/-- One slot of the registry map: a key and the collection of stored values
(the Rust `HashSet<Value>`, embedded as a duplicate-free list). -/
abbrev Slot := LinkKey × List Value

/-- The conflict message of `Links::insert` (links.rs:104). -/
def conflictMsg : String :=
  "Links between the same component and package must have disjoint (non overlapping) interfaces"

/-- Lookup of a key in the association-list embedding of the registry map. -/
def lookupLinks : List Slot → LinkKey → Option (List Value)
  | [], _ => none
  | (k', vs) :: rest, k => if k' = k then some vs else lookupLinks rest k

/-- Core of `Links::insert` (links.rs:92-113) on the association list.
On the occupied slot: reject when any stored value's interface set has a
non-empty intersection with the new value's (`.count() > 0` becomes
`0 < card`); otherwise set-insert the value (a no-op when an equal value is
already stored).  On a vacant key: append a fresh slot holding the value.
The error case returns the list unchanged, mirroring the early return
before any mutation. -/
def insertLinks : List Slot → LinkKey → Value → Except String Unit × List Slot
  | [], k, v => (.ok (), [(k, [v])])
  | (k', vs) :: rest, k, v =>
    if k' = k then
      if vs.any fun v' => 0 < (v'.interfaces ∩ v.interfaces).card then
        (.error conflictMsg, (k', vs) :: rest)
      else
        (.ok (), (k', if v ∈ vs then vs else vs ++ [v]) :: rest)
    else
      let p := insertLinks rest k v
      (p.1, (k', vs) :: p.2)

/-- Core of `Links::remove` (links.rs:116-118): `HashMap::remove` deletes
the whole entry for the key and reports whether one was present. -/
def removeLinks : List Slot → LinkKey → Bool × List Slot
  | [], _ => (false, [])
  | (k', vs) :: rest, k =>
    if k' = k then (true, rest)
    else
      let p := removeLinks rest k
      (p.1, (k', vs) :: p.2)

/-- Embedding of `Links` (links.rs:76-81): the registry state. -/
structure Links where
  links : List Slot
deriving DecidableEq

/-- `Links::new` / `Default` (links.rs:84-86). -/
def Links.empty : Links := ⟨[]⟩

/-- `Links::insert` (links.rs:92-113).  The Rust function mutates
`&mut self` and returns `anyhow::Result<()>`; the embedding returns the
result together with the post-state (unchanged on error). -/
def Links.insert (s : Links) (l : InterfaceLinkDefinition) : Except String Unit × Links :=
  let p := insertLinks s.links (LinkKey.ofLink l) (Value.ofLink l)
  (p.1, ⟨p.2⟩)

/-- `Links::remove` (links.rs:116-118). -/
def Links.remove (s : Links) (k : LinkKey) : Bool × Links :=
  let p := removeLinks s.links k
  (p.1, ⟨p.2⟩)

/-- Flattening of the association list into the stored links, the core of
`Links::iter` (links.rs:121-126). -/
def iterLinks (l : List Slot) : List InterfaceLinkDefinition :=
  l.flatMap fun p => p.2.map (·.link)

/-- `Links::iter` (links.rs:121-126): every stored link across every slot,
order-irrelevant. -/
def Links.iter (s : Links) : List InterfaceLinkDefinition :=
  iterLinks s.links

/-- Lookup on the registry state. -/
def Links.lookup (s : Links) (k : LinkKey) : Option (List Value) :=
  lookupLinks s.links k

/-- The keys of the registry map are pairwise distinct — inherent to the
Rust `HashMap` representation. -/
def Links.KeysNodup (s : Links) : Prop :=
  (s.links.map (·.1)).Nodup

/-- Each slot's collection is duplicate-free — inherent to the Rust
`HashSet` representation. -/
def Links.SlotsNodup (s : Links) : Prop :=
  ∀ p ∈ s.links, p.2.Nodup

/-- Invariant I1: within one slot, the interface sets of stored values are
pairwise disjoint. -/
def Links.Disjoint (s : Links) : Prop :=
  ∀ p ∈ s.links, p.2.Pairwise fun a b => a.interfaces ∩ b.interfaces = ∅

/-- Registry states reachable from the empty registry by `insert` and
`remove` (a failed `insert` leaves the state unchanged in the embedding,
so the `insert` step covers both outcomes). -/
inductive Links.Reachable : Links → Prop
  | empty : Links.Reachable Links.empty
  | insert (s : Links) (l : InterfaceLinkDefinition) :
      Links.Reachable s → Links.Reachable (s.insert l).2
  | remove (s : Links) (k : LinkKey) :
      Links.Reachable s → Links.Reachable (s.remove k).2

/-! ## The placement & confirmation flow (`handle_start_provider`, start.rs)

The async function is sequential: every fallible collaborator call is an
oracle in an `Env`, and the function is embedded as a pure map from the
environment and the command to the final result together with the list of
externally visible actions, in program order. -/

/-- The synchronous acknowledgment of a dispatched command
(`CtlOperationAck`). -/
structure Ack where
  accepted : Bool
  error : String

/-- One auction response (`ProviderAuctionAck`): names a candidate host. -/
structure Bid where
  host_id : String

/-- `ProviderStartedInfo` (wash-lib `wait` module): the identity metadata of
a matched success event. -/
structure ProviderStartedInfo where
  provider_id : String
  provider_ref : String
  host_id : String
  contract_id : String
  link_name : String

/-- `FindEventOutcome` for provider start: the matched event was the success
kind, or the failure kind carrying the host's reported error. -/
inductive FindEventOutcome where
  | success (info : ProviderStartedInfo)
  | failure (err : String)

/-- `CommandOutput`: a summary string plus named fields. -/
structure CommandOutput where
  text : String
  map : List (String × String)
deriving DecidableEq

/-- `StartProviderCommand` (start.rs:23-60); `timeout_ms` is the
`cmd.opts.timeout_ms` field read by the timeout override. -/
structure StartProviderCommand where
  timeout_ms : Nat
  host_id : Option String
  provider_ref : String
  link_name : String
  constraints : Option (List String)
  auction_timeout_ms : Nat
  config_json : Option String
  skip_wait : Bool

/-- The externally visible actions of one run, in program order. -/
inductive Action where
  | auction (provider_ref link_name : String)
  | subscribe (kinds : List String)
  | dispatch (host provider_ref link_name : String) (config : Option String)
  | waitEvent (timeout_ms : Nat) (host provider_ref : String)
deriving DecidableEq

/-- The collaborators of `handle_start_provider`, as oracles.  `connect`
covers the `TryInto<WashConnectionOptions>` conversion and
`into_ctl_client` (start.rs:69-71); `readConfig` covers the file read and
the JSON validation of the config block (start.rs:106-120), whose two
distinct error messages are not distinguished by any claim. -/
structure Env where
  connect : Except String Unit
  findHostId : String → Except String String
  labelsToMap : List String → Except String (List (String × String))
  auction : String → String → List (String × String) → Except String (List Bid)
  parseHostId : String → Except String String
  readConfig : String → Except String String
  subscribe : List String → Except String Unit
  dispatch : String → String → String → Option String → Except String Ack
  waitEvent : Nat → String → String → Except String FindEventOutcome

/-- Modelled from the spec: `DEFAULT_NATS_TIMEOUT_MS` is defined in
`crates/wash-lib/src/config.rs`, which is not among the sources; the CLI
doc comments (start.rs:47, scale.rs:54) state the default timeout is 2000
milliseconds. -/
def DEFAULT_NATS_TIMEOUT_MS : Nat := 2000

/-- Modelled from the spec: `DEFAULT_START_PROVIDER_TIMEOUT_MS` is defined
in `crates/wash-lib/src/config.rs`, not among the sources; the doc comment
on `skip_wait` (start.rs:57) states the adjusted timeout is 30 seconds. -/
def DEFAULT_START_PROVIDER_TIMEOUT_MS : Nat := 30000

/-- Modelled from the spec: `DEFAULT_SCALE_ACTOR_TIMEOUT_MS` is defined in
`crates/wash-lib/src/config.rs`, not among the sources; the doc comment on
`skip_wait` (scale.rs:60) states the adjusted timeout is 5 seconds. -/
def DEFAULT_SCALE_ACTOR_TIMEOUT_MS : Nat := 5000

/-- The timeout override of `handle_start_provider` (start.rs:63-68). -/
def effectiveStartTimeout (t : Nat) : Nat :=
  if t = DEFAULT_NATS_TIMEOUT_MS then DEFAULT_START_PROVIDER_TIMEOUT_MS else t

/-- The timeout override of `handle_scale_actor` (scale.rs:66-71); the
selected value is forwarded as `ScaleActorArgs.timeout_ms` (scale.rs:101)
to `scale_actor`, whose wait loop lives outside the sources here. -/
def effectiveScaleTimeout (t : Nat) : Nat :=
  if t = DEFAULT_NATS_TIMEOUT_MS then DEFAULT_SCALE_ACTOR_TIMEOUT_MS else t

/-- Rust `str::starts_with`, embedded over the underlying character list
(the Lean core `String.startsWith` is compiled code and does not reduce). -/
def strStartsWith (s p : String) : Bool :=
  p.data.isPrefixOf s.data

/-- Artifact-reference normalization (start.rs:73-77, and identically
scale.rs:76-80): a reference starting with the path separator gets the
local-file scheme prefix; anything else is unchanged. -/
def normalizeRef (r : String) : String :=
  if strStartsWith r "/" then "file://" ++ r else r

/-- The event kinds the subscription is filtered to (start.rs:123-126). -/
def eventKinds : List String := ["provider_started", "provider_start_failed"]

/-- Host resolution (start.rs:79-104): a supplied hint goes through
`find_host_id`; otherwise the provider is auctioned and bid 0's host id is
parsed.  Returns the resolved host (or the error) with the actions taken. -/
def resolveHost (env : Env) (hostHint : Option String) (ref link_name : String)
    (constraints : List String) : Except String String × List Action :=
  match hostHint with
  | some h =>
    match env.findHostId h with
    | .error e => (.error e, [])
    | .ok hid => (.ok hid, [])
  | none =>
    match env.labelsToMap constraints with
    | .error e => (.error e, [])
    | .ok cons =>
      match env.auction ref link_name cons with
      | .error e =>
        (.error ("Failed to auction provider " ++ ref ++ " with link name " ++ link_name
            ++ " to hosts in lattice: " ++ e), [.auction ref link_name])
      | .ok [] =>
        (.error ("No suitable hosts found for provider " ++ ref), [.auction ref link_name])
      | .ok (b :: _) =>
        match env.parseHostId b.host_id with
        | .error e =>
          (.error ("Failed to parse host id: " ++ b.host_id ++ ": " ++ e),
           [.auction ref link_name])
        | .ok h => (.ok h, [.auction ref link_name])

/-- The provider-configuration block (start.rs:106-120). -/
def getConfig (env : Env) : Option String → Except String (Option String)
  | none => .ok none
  | some path =>
    match env.readConfig path with
    | .error e => .error e
    | .ok s => .ok (some s)

/-- The skip-wait output (start.rs:152-163). -/
def skipOutput (ref link_name host : String) : CommandOutput :=
  let text := "Start provider request received: " ++ ref
  ⟨text, [("result", text), ("provider_ref", ref), ("link_name", link_name),
    ("host_id", host)]⟩

/-- The success output built from a matched start event (start.rs:180-202). -/
def startedOutput (info : ProviderStartedInfo) : CommandOutput :=
  let text := "Provider [" ++ info.provider_id ++ "] (ref: [" ++ info.provider_ref
      ++ "]) started on host [" ++ info.host_id ++ "]"
  ⟨text, [("result", text), ("provider_ref", info.provider_ref),
    ("provider_id", info.provider_id), ("link_name", info.link_name),
    ("contract_id", info.contract_id), ("host_id", info.host_id)]⟩

/-- Subscription, dispatch, ack check, skip-wait short-circuit and event
wait (start.rs:122-209), with the host and the normalized reference already
resolved.  `anyhow` context wrapping is embedded as prefixing the context
message; the debug-formatted details some contexts carry are dropped, which
no claim depends on. -/
def dispatchAndWait (env : Env) (cmd : StartProviderCommand) (host ref : String)
    (config : Option String) : Except String CommandOutput × List Action :=
  match env.subscribe eventKinds with
  | .error e => (.error ("Failed to get lattice event channel: " ++ e), [])
  | .ok _ =>
    match env.dispatch host ref cmd.link_name config with
    | .error e =>
      (.error ("Failed to start provider " ++ ref ++ " on host " ++ host ++ ": " ++ e),
       [.subscribe eventKinds, .dispatch host ref cmd.link_name config])
    | .ok ack =>
      if ack.accepted = false then
        (.error ("Start provider ack not accepted: " ++ ack.error),
         [.subscribe eventKinds, .dispatch host ref cmd.link_name config])
      else if cmd.skip_wait then
        (.ok (skipOutput ref cmd.link_name host),
         [.subscribe eventKinds, .dispatch host ref cmd.link_name config])
      else
        match env.waitEvent (effectiveStartTimeout cmd.timeout_ms) host ref with
        | .error e =>
          (.error ("Timed out waiting for start event for provider " ++ ref
              ++ " on host " ++ host ++ ": " ++ e),
           [.subscribe eventKinds, .dispatch host ref cmd.link_name config,
            .waitEvent (effectiveStartTimeout cmd.timeout_ms) host ref])
        | .ok (.success info) =>
          (.ok (startedOutput info),
           [.subscribe eventKinds, .dispatch host ref cmd.link_name config,
            .waitEvent (effectiveStartTimeout cmd.timeout_ms) host ref])
        | .ok (.failure err) =>
          (.error ("Failed starting provider " ++ ref ++ " on host " ++ host ++ ": " ++ err),
           [.subscribe eventKinds, .dispatch host ref cmd.link_name config,
            .waitEvent (effectiveStartTimeout cmd.timeout_ms) host ref])

/-- `handle_start_provider` (start.rs:62-209), end to end.  The override of
the caller timeout (start.rs:63-68) happens before anything else and the
chosen value is only read at the event wait, so it appears here via
`effectiveStartTimeout` at the wait site. -/
def handle_start_provider (env : Env) (cmd : StartProviderCommand) :
    Except String CommandOutput × List Action :=
  match env.connect with
  | .error e => (.error e, [])
  | .ok _ =>
    match resolveHost env cmd.host_id (normalizeRef cmd.provider_ref) cmd.link_name
        (cmd.constraints.getD []) with
    | (.error e, t) => (.error e, t)
    | (.ok host, t) =>
      match getConfig env cmd.config_json with
      | .error e => (.error e, t)
      | .ok config =>
        let p := dispatchAndWait env cmd host (normalizeRef cmd.provider_ref) config
        (p.1, t ++ p.2)

/-- True while every dispatch in the trace happens with a subscription
already open. -/
def subOpenOk (subscribed : Bool) : List Action → Bool
  | [] => true
  | .subscribe _ :: rest => subOpenOk true rest
  | .dispatch _ _ _ _ :: rest => subscribed && subOpenOk subscribed rest
  | .auction _ _ :: rest => subOpenOk subscribed rest
  | .waitEvent _ _ _ :: rest => subOpenOk subscribed rest

/-- Whether an action is a command dispatch. -/
def Action.isDispatch : Action → Bool
  | .dispatch _ _ _ _ => true
  | _ => false

/-- Whether an action is an event wait. -/
def Action.isWait : Action → Bool
  | .waitEvent _ _ _ => true
  | _ => false

/-- Number of dispatches in a trace. -/
def countDispatch (t : List Action) : Nat := (t.filter Action.isDispatch).length

/-- Number of event waits in a trace. -/
def countWait (t : List Action) : Nat := (t.filter Action.isWait).length

/-- The artifact reference an action carries, if any. -/
def Action.refOf : Action → Option String
  | .auction r _ => some r
  | .subscribe _ => none
  | .dispatch _ r _ _ => some r
  | .waitEvent _ _ r => some r

/-- Every action in the trace that carries an artifact reference carries
exactly `r`. -/
def refsOk (r : String) (t : List Action) : Bool :=
  t.all fun a => match a.refOf with
    | none => true
    | some x => x = r

/-- Every subscription in the trace is filtered to exactly `ks`. -/
def subsKindsOk (ks : List String) (t : List Action) : Bool :=
  t.all fun a => match a with
    | .subscribe l => l = ks
    | _ => true

/-- Every dispatch in the trace targets exactly the host `h`. -/
def dispatchHostsOk (h : String) (t : List Action) : Bool :=
  t.all fun a => match a with
    | .dispatch host _ _ _ => host = h
    | _ => true

/-- Every event wait in the trace uses exactly the deadline `n`. -/
def waitTimeoutsOk (n : Nat) (t : List Action) : Bool :=
  t.all fun a => match a with
    | .waitEvent m _ _ => m = n
    | _ => true

/-! ## Concrete inputs used by witnesses and counterexamples -/

/-- A link wiring the `wasi:http` incoming handler. -/
def linkHttpIn : InterfaceLinkDefinition :=
  ⟨"comp-a", "comp-b", "default", "wasi", "http", ["incoming-handler"]⟩

/-- Same slot as `linkHttpIn`, disjoint interface. -/
def linkHttpOut : InterfaceLinkDefinition :=
  ⟨"comp-a", "comp-b", "default", "wasi", "http", ["outgoing-handler"]⟩

/-- Same slot and interface as `linkHttpIn` but a different target, so it is
a distinct entry that overlaps it. -/
def linkHttpIn2 : InterfaceLinkDefinition :=
  ⟨"comp-a", "comp-c", "default", "wasi", "http", ["incoming-handler"]⟩

/-- A registry holding only `linkHttpIn2`. -/
def regWithIn2 : Links := (Links.empty.insert linkHttpIn2).2

/-- A happy-path environment: auction yields one bid, dispatch is accepted,
the matching success event arrives. -/
def envW : Env where
  connect := .ok ()
  findHostId := fun _ => .ok "HOSTA"
  labelsToMap := fun _ => .ok []
  auction := fun _ _ _ => .ok [⟨"HOSTA"⟩]
  parseHostId := fun h => .ok h
  readConfig := fun _ => .ok "null"
  subscribe := fun _ => .ok ()
  dispatch := fun _ _ _ _ => .ok ⟨true, ""⟩
  waitEvent := fun _ h r => .ok (.success ⟨"PID", r, h, "wasmcloud:httpserver", "default"⟩)

/-- Like `envW` but the auction returns no bids. -/
def envA : Env where
  connect := .ok ()
  findHostId := fun _ => .ok "HOSTA"
  labelsToMap := fun _ => .ok []
  auction := fun _ _ _ => .ok []
  parseHostId := fun h => .ok h
  readConfig := fun _ => .ok "null"
  subscribe := fun _ => .ok ()
  dispatch := fun _ _ _ _ => .ok ⟨true, ""⟩
  waitEvent := fun _ h r => .ok (.success ⟨"PID", r, h, "wasmcloud:httpserver", "default"⟩)

/-- Like `envW` but the ack rejects the command. -/
def envR : Env where
  connect := .ok ()
  findHostId := fun _ => .ok "HOSTA"
  labelsToMap := fun _ => .ok []
  auction := fun _ _ _ => .ok [⟨"HOSTA"⟩]
  parseHostId := fun h => .ok h
  readConfig := fun _ => .ok "null"
  subscribe := fun _ => .ok ()
  dispatch := fun _ _ _ _ => .ok ⟨false, "insufficient resources"⟩
  waitEvent := fun _ h r => .ok (.success ⟨"PID", r, h, "wasmcloud:httpserver", "default"⟩)

/-- A start command with no host hint and a filesystem provider reference. -/
def cmdW : StartProviderCommand :=
  ⟨2000, none, "/opt/providers/foo", "default", none, 2000, none, false⟩

/-! ## Lemmas about the registry association list -/

theorem lookupLinks_eq_none {l : List Slot} {k : LinkKey} :
    lookupLinks l k = none ↔ ∀ p ∈ l, p.1 ≠ k := by
  induction l with
  | nil => simp [lookupLinks]
  | cons hd tl ih =>
    obtain ⟨k', vs⟩ := hd
    by_cases hk : k' = k
    · subst hk; simp [lookupLinks]
    · simp [lookupLinks, hk, ih]

theorem insertLinks_lookup_none {l : List Slot} {k : LinkKey} (v : Value)
    (h : lookupLinks l k = none) :
    insertLinks l k v = (.ok (), l ++ [(k, [v])]) := by
  induction l with
  | nil => simp [insertLinks]
  | cons hd tl ih =>
    obtain ⟨k', vs⟩ := hd
    simp only [lookupLinks] at h
    by_cases hk : k' = k
    · simp [hk] at h
    · rw [if_neg hk] at h
      simp [insertLinks, hk, ih h]

theorem overlap_of_any_true {vs : List Value} {v : Value}
    (hc : (vs.any fun v' => 0 < (v'.interfaces ∩ v.interfaces).card) = true) :
    ∃ x ∈ vs, (x.interfaces ∩ v.interfaces).Nonempty := by
  simpa [Finset.card_pos] using hc

theorem no_overlap_of_any_false {vs : List Value} {v : Value}
    (hc : (vs.any fun v' => 0 < (v'.interfaces ∩ v.interfaces).card) = false) :
    ¬ ∃ x ∈ vs, (x.interfaces ∩ v.interfaces).Nonempty := by
  simpa [Finset.card_pos] using hc

theorem insertLinks_conflict {l : List Slot} {k : LinkKey} {v : Value} {vs : List Value}
    (hvs : lookupLinks l k = some vs)
    (hc : (vs.any fun v' => 0 < (v'.interfaces ∩ v.interfaces).card) = true) :
    insertLinks l k v = (.error conflictMsg, l) := by
  induction l with
  | nil => simp [lookupLinks] at hvs
  | cons hd tl ih =>
    obtain ⟨k', vs'⟩ := hd
    simp only [lookupLinks] at hvs
    by_cases hk : k' = k
    · rw [if_pos hk] at hvs
      obtain rfl : vs' = vs := by simpa using hvs
      simp [insertLinks, hk, overlap_of_any_true hc]
    · rw [if_neg hk] at hvs
      simp [insertLinks, hk, ih hvs]

theorem insertLinks_noop {l : List Slot} {k : LinkKey} {v : Value} {vs : List Value}
    (hvs : lookupLinks l k = some vs)
    (hc : (vs.any fun v' => 0 < (v'.interfaces ∩ v.interfaces).card) = false)
    (hm : v ∈ vs) :
    insertLinks l k v = (.ok (), l) := by
  induction l with
  | nil => simp [lookupLinks] at hvs
  | cons hd tl ih =>
    obtain ⟨k', vs'⟩ := hd
    simp only [lookupLinks] at hvs
    by_cases hk : k' = k
    · rw [if_pos hk] at hvs
      obtain rfl : vs' = vs := by simpa using hvs
      simp [insertLinks, hk, no_overlap_of_any_false hc, hm]
    · rw [if_neg hk] at hvs
      simp [insertLinks, hk, ih hvs]

theorem insertLinks_ok_mem {l : List Slot} {k : LinkKey} {v : Value}
    (h : (insertLinks l k v).1 = .ok ()) :
    ∃ vs, lookupLinks (insertLinks l k v).2 k = some vs ∧ v ∈ vs := by
  induction l with
  | nil => exact ⟨[v], by simp [insertLinks, lookupLinks], by simp⟩
  | cons hd tl ih =>
    obtain ⟨k', vs'⟩ := hd
    by_cases hk : k' = k
    · by_cases hc : (vs'.any fun v' => 0 < (v'.interfaces ∩ v.interfaces).card) = true
      · simp [insertLinks, hk, overlap_of_any_true hc] at h
      · rw [Bool.not_eq_true] at hc
        refine ⟨if v ∈ vs' then vs' else vs' ++ [v], ?_, ?_⟩
        · simp [insertLinks, hk, no_overlap_of_any_false hc, lookupLinks]
        · by_cases hm : v ∈ vs' <;> simp [hm]
    · have h' : (insertLinks tl k v).1 = .ok () := by
        simpa [insertLinks, hk] using h
      obtain ⟨vs, h1, h2⟩ := ih h'
      exact ⟨vs, by simp [insertLinks, hk, lookupLinks, h1], h2⟩

theorem link_mem_iterLinks {l : List Slot} {p : Slot} {v : Value}
    (hp : p ∈ l) (hv : v ∈ p.2) : v.link ∈ iterLinks l := by
  simp only [iterLinks, List.mem_flatMap, List.mem_map]
  exact ⟨p, hp, v, hv, rfl⟩

theorem insertLinks_count {l : List Slot} {k : LinkKey} {v : Value}
    (h : (insertLinks l k v).1 = .ok ())
    (hnm : v.link ∉ iterLinks l) :
    (iterLinks (insertLinks l k v).2).count v.link = (iterLinks l).count v.link + 1 := by
  induction l with
  | nil => simp [insertLinks, iterLinks]
  | cons hd tl ih =>
    obtain ⟨k', vs'⟩ := hd
    have hnm' : v.link ∉ iterLinks tl := by
      intro hmem
      exact hnm (by simp [iterLinks] at hmem ⊢; exact Or.inr hmem)
    by_cases hk : k' = k
    · by_cases hc : (vs'.any fun v' => 0 < (v'.interfaces ∩ v.interfaces).card) = true
      · simp [insertLinks, hk, overlap_of_any_true hc] at h
      · rw [Bool.not_eq_true] at hc
        have hm : v ∉ vs' := fun hm =>
          hnm (link_mem_iterLinks (List.mem_cons_self _ _) hm)
        simp [insertLinks, hk, no_overlap_of_any_false hc, hm, iterLinks,
          List.count_append]
        omega
    · have h' : (insertLinks tl k v).1 = .ok () := by
        simpa [insertLinks, hk] using h
      have ihh := ih h' hnm'
      simp only [iterLinks] at ihh
      simp only [insertLinks, if_neg hk]
      simp [iterLinks, List.count_append, ihh]
      omega

theorem eq_empty_of_any_false {vs : List Value} {v : Value}
    (hc : (vs.any fun v' => 0 < (v'.interfaces ∩ v.interfaces).card) = false) :
    ∀ x ∈ vs, x.interfaces ∩ v.interfaces = ∅ := by
  intro x hx
  by_contra hne
  exact no_overlap_of_any_false hc ⟨x, hx, Finset.nonempty_iff_ne_empty.mpr hne⟩

theorem removeLinks_lookup_none {l : List Slot} {k : LinkKey}
    (h : lookupLinks l k = none) : removeLinks l k = (false, l) := by
  induction l with
  | nil => simp [removeLinks]
  | cons hd tl ih =>
    obtain ⟨k', vs⟩ := hd
    simp only [lookupLinks] at h
    by_cases hk : k' = k
    · simp [hk] at h
    · rw [if_neg hk] at h
      simp [removeLinks, hk, ih h]

theorem lookupLinks_none_of_not_mem_keys {l : List Slot} {k : LinkKey}
    (h : k ∉ l.map (·.1)) : lookupLinks l k = none := by
  rw [lookupLinks_eq_none]
  intro p hp hpk
  exact h (by simpa [hpk] using List.mem_map_of_mem (·.1) hp)

theorem removeLinks_present {l : List Slot} {k : LinkKey} {vs : List Value}
    (hnd : (l.map (·.1)).Nodup)
    (hvs : lookupLinks l k = some vs) :
    removeLinks l k = (true, l.filter fun p => p.1 ≠ k) := by
  induction l with
  | nil => simp [lookupLinks] at hvs
  | cons hd tl ih =>
    obtain ⟨k', vs'⟩ := hd
    obtain ⟨hknotin, hndtl⟩ := List.nodup_cons.mp hnd
    simp only [lookupLinks] at hvs
    by_cases hk : k' = k
    · subst hk
      have : tl.filter (fun p => p.1 ≠ k') = tl :=
        List.filter_eq_self.mpr fun p hp => by
          simpa using fun hpk =>
            hknotin (by simpa [hpk] using List.mem_map_of_mem (·.1) hp)
      simp only [removeLinks, if_pos rfl, if_true]
      simp [List.filter_cons]
      simp only [ne_eq, decide_not] at this
      exact this.symm
    · rw [if_neg hk] at hvs
      simp [removeLinks, hk, ih hndtl hvs]

theorem insertLinks_disjoint {l : List Slot} {k : LinkKey} {v : Value}
    (h : ∀ p ∈ l, p.2.Pairwise fun a b => a.interfaces ∩ b.interfaces = ∅) :
    ∀ p ∈ (insertLinks l k v).2,
      p.2.Pairwise fun a b => a.interfaces ∩ b.interfaces = ∅ := by
  induction l with
  | nil => simp [insertLinks]
  | cons hd tl ih =>
    obtain ⟨k', vs'⟩ := hd
    have hhd := h _ (List.mem_cons_self _ _)
    have htl : ∀ p ∈ tl, p.2.Pairwise fun a b => a.interfaces ∩ b.interfaces = ∅ :=
      fun p hp => h p (List.mem_cons_of_mem _ hp)
    by_cases hk : k' = k
    · have hlk : lookupLinks ((k', vs') :: tl) k = some vs' := by
        simp [lookupLinks, hk]
      by_cases hc : (vs'.any fun v' => 0 < (v'.interfaces ∩ v.interfaces).card) = true
      · rw [insertLinks_conflict hlk hc]
        exact h
      · rw [Bool.not_eq_true] at hc
        have heq : insertLinks ((k', vs') :: tl) k v =
            (.ok (), (k', if v ∈ vs' then vs' else vs' ++ [v]) :: tl) := by
          simp [insertLinks, hk, no_overlap_of_any_false hc]
        rw [heq]
        intro p hp
        rcases List.mem_cons.mp hp with rfl | hp'
        · by_cases hm : v ∈ vs'
          · simpa [hm] using hhd
          · simp only [hm, if_neg, if_false]
            rw [List.pairwise_append]
            refine ⟨hhd, by simp, ?_⟩
            intro a ha b hb
            rw [List.mem_singleton] at hb
            subst hb
            exact eq_empty_of_any_false hc a ha
        · exact htl p hp'
    · intro p hp
      simp only [insertLinks, if_neg hk] at hp
      rcases List.mem_cons.mp hp with rfl | hp'
      · exact hhd
      · exact ih htl p hp'

theorem removeLinks_disjoint {l : List Slot} {k : LinkKey}
    (h : ∀ p ∈ l, p.2.Pairwise fun a b => a.interfaces ∩ b.interfaces = ∅) :
    ∀ p ∈ (removeLinks l k).2,
      p.2.Pairwise fun a b => a.interfaces ∩ b.interfaces = ∅ := by
  induction l with
  | nil => simp [removeLinks]
  | cons hd tl ih =>
    obtain ⟨k', vs'⟩ := hd
    have htl : ∀ p ∈ tl, p.2.Pairwise fun a b => a.interfaces ∩ b.interfaces = ∅ :=
      fun p hp => h p (List.mem_cons_of_mem _ hp)
    by_cases hk : k' = k
    · simpa [removeLinks, hk] using htl
    · intro p hp
      simp only [removeLinks, if_neg hk] at hp
      rcases List.mem_cons.mp hp with rfl | hp'
      · exact h _ (List.mem_cons_self _ _)
      · exact ih htl p hp'

theorem filter_ne_key_eq_self {l : List Slot} {k : LinkKey}
    (h : k ∉ l.map (·.1)) : (l.filter fun p => p.1 ≠ k) = l :=
  List.filter_eq_self.mpr fun p hp => by
    simpa using fun hpk => h (by simpa [hpk] using List.mem_map_of_mem (·.1) hp)

theorem lookupLinks_filter_ne {l : List Slot} {k : LinkKey} :
    lookupLinks (l.filter fun p => p.1 ≠ k) k = none := by
  rw [lookupLinks_eq_none]
  intro p hp
  have := (List.mem_filter.mp hp).2
  simpa using this

theorem iterLinks_cons (p : Slot) (l : List Slot) :
    iterLinks (p :: l) = p.2.map (·.link) ++ iterLinks l := by
  simp [iterLinks]

theorem iterLinks_filter_length {l : List Slot} {k : LinkKey} {vs : List Value}
    (hnd : (l.map (·.1)).Nodup) (hvs : lookupLinks l k = some vs) :
    (iterLinks (l.filter fun p => p.1 ≠ k)).length + vs.length = (iterLinks l).length := by
  induction l with
  | nil => simp [lookupLinks] at hvs
  | cons hd tl ih =>
    obtain ⟨k', vs'⟩ := hd
    obtain ⟨hknotin, hndtl⟩ := List.nodup_cons.mp hnd
    simp only [lookupLinks] at hvs
    by_cases hk : k' = k
    · subst hk
      obtain rfl : vs' = vs := by simpa using hvs
      have hstep : ((k', vs') :: tl).filter (fun p => p.1 ≠ k') = tl := by
        rw [List.filter_cons]
        simp
        intro a b hab hak
        exact hknotin (by simpa [hak] using List.mem_map_of_mem (·.1) hab)
      rw [hstep, iterLinks_cons]
      simp [List.length_append]
      omega
    · rw [if_neg hk] at hvs
      have hrec := ih hndtl hvs
      have hstep : ((k', vs') :: tl).filter (fun p => p.1 ≠ k)
          = (k', vs') :: tl.filter (fun p => p.1 ≠ k) := by
        rw [List.filter_cons]
        simp [hk]
      rw [hstep, iterLinks_cons, iterLinks_cons]
      simp only [List.length_append]
      rw [Nat.add_assoc, hrec]

theorem insertLinks_app {l l2 : List Slot} {k : LinkKey} {v : Value}
    (habs : lookupLinks l k = none) :
    insertLinks (l ++ l2) k v = ((insertLinks l2 k v).1, l ++ (insertLinks l2 k v).2) := by
  induction l with
  | nil => simp
  | cons hd tl ih =>
    obtain ⟨k', vs⟩ := hd
    simp only [lookupLinks] at habs
    by_cases hk : k' = k
    · simp [hk] at habs
    · rw [if_neg hk] at habs
      simp [insertLinks, hk, ih habs]

theorem insertLinks_single {k : LinkKey} {v1 v2 : Value}
    (hd : (v1.interfaces ∩ v2.interfaces).card = 0) :
    insertLinks [(k, [v1])] k v2 =
      (.ok (), [(k, if v2 ∈ ([v1] : List Value) then [v1] else [v1, v2])]) := by
  have hem : v1.interfaces ∩ v2.interfaces = ∅ := Finset.card_eq_zero.mp hd
  have hc : (([v1] : List Value).any fun v' => 0 < (v'.interfaces ∩ v2.interfaces).card)
      = false := by simp [hem]
  simp [insertLinks, no_overlap_of_any_false hc, hem]

theorem insertLinks_reinsert {l : List Slot} {k : LinkKey} {v : Value}
    (hok : (insertLinks l k v).1 = .ok ()) :
    insertLinks (insertLinks l k v).2 k v =
      (if v.interfaces = ∅ then .ok () else .error conflictMsg, (insertLinks l k v).2) := by
  obtain ⟨vs, hvs, hmem⟩ := insertLinks_ok_mem hok
  by_cases hE : v.interfaces = ∅
  · have hc : (vs.any fun v' => 0 < (v'.interfaces ∩ v.interfaces).card) = false := by
      apply List.any_eq_false.mpr
      intro x hx
      simp [hE]
    rw [insertLinks_noop hvs hc hmem, if_pos hE]
  · have hne : v.interfaces.Nonempty := Finset.nonempty_iff_ne_empty.mpr hE
    have hself : (v.interfaces ∩ v.interfaces).Nonempty := by
      simpa [Finset.inter_self] using hne
    have hc : (vs.any fun v' => 0 < (v'.interfaces ∩ v.interfaces).card) = true :=
      List.any_eq_true.mpr ⟨v, hmem, by simpa [Finset.card_pos] using hself⟩
    rw [insertLinks_conflict hvs hc, if_neg hE]

/-! ## Claim theorems for the Link Registry -/

/-- C1: inserting a link whose `LinkKey` matches an existing slot and whose
interface set overlaps the interface set of at least one link already
stored in that slot is rejected with the `Conflict` error and leaves the
registry state exactly what it was before the call. -/
theorem insert_overlap_conflict (s : Links) (L : InterfaceLinkDefinition)
    (vs : List Value)
    (hvs : s.lookup (LinkKey.ofLink L) = some vs)
    (hov : ∃ v' ∈ vs, (v'.interfaces ∩ (Value.ofLink L).interfaces).Nonempty) :
    (s.insert L).1 = .error conflictMsg ∧ (s.insert L).2 = s := by
  have hc : (vs.any fun v' => 0 < (v'.interfaces ∩ (Value.ofLink L).interfaces).card)
      = true := by
    obtain ⟨v', hv', hne⟩ := hov
    exact List.any_eq_true.mpr ⟨v', hv', by simpa [Finset.card_pos] using hne⟩
  have heq := insertLinks_conflict
    (show lookupLinks s.links (LinkKey.ofLink L) = some vs from hvs) hc
  cases s
  exact ⟨by simp [Links.insert, heq], by simp [Links.insert, heq]⟩

/-- C1 witness: `linkHttpIn` conflicts with the stored `linkHttpIn2` (same
slot, same interface, different target). -/
theorem insert_overlap_conflict_witness :
    regWithIn2.lookup (LinkKey.ofLink linkHttpIn) = some [Value.ofLink linkHttpIn2]
    ∧ ((Value.ofLink linkHttpIn2).interfaces ∩ (Value.ofLink linkHttpIn).interfaces).Nonempty
    ∧ (regWithIn2.insert linkHttpIn).1 = .error conflictMsg
    ∧ (regWithIn2.insert linkHttpIn).2 = regWithIn2 := by
  have h1 : regWithIn2.lookup (LinkKey.ofLink linkHttpIn)
      = some [Value.ofLink linkHttpIn2] := by decide
  have h2 : ((Value.ofLink linkHttpIn2).interfaces
      ∩ (Value.ofLink linkHttpIn).interfaces).Nonempty := by decide
  have h := insert_overlap_conflict regWithIn2 linkHttpIn _ h1
    ⟨Value.ofLink linkHttpIn2, List.mem_singleton.mpr rfl, h2⟩
  exact ⟨h1, h2, h.1, h.2⟩

/-- C2 counterexample: after a successful insert of `linkHttpIn` into the
empty registry, inserting the identical link again (same 4-tuple key, same
interface set) does not return Ok: it is rejected with the `Conflict`
error, because the stored identical entry's interface set intersects the
incoming one (it is the same non-empty set). -/
theorem reinsert_rejected_cex :
    (Links.empty.insert linkHttpIn).1 = .ok ()
    ∧ ((Links.empty.insert linkHttpIn).2.insert linkHttpIn).1 = .error conflictMsg :=
  ⟨rfl, rfl⟩

/-- C2 (amended): after a successful insert of a link `L` not previously
reported by `iter()`, inserting `L` again leaves the registry state
unchanged and `iter()` still reports exactly one entry equal to `L`; but
the second insert returns Ok only when `L`'s interface set is empty — for a
link with at least one interface it returns the `Conflict` error. -/
theorem reinsert_noop_state (s : Links) (L : InterfaceLinkDefinition)
    (hok : (s.insert L).1 = .ok ()) (hnm : L ∉ s.iter) :
    ((s.insert L).2.insert L).2 = (s.insert L).2
    ∧ (((s.insert L).2.insert L).1 = .ok () ↔ L.interfaces.toFinset = ∅)
    ∧ (s.insert L).2.iter.count L = 1
    ∧ ((s.insert L).2.insert L).2.iter.count L = 1 := by
  have hok' : (insertLinks s.links (LinkKey.ofLink L) (Value.ofLink L)).1 = .ok () := hok
  have hre := insertLinks_reinsert hok'
  have hcount : (iterLinks (insertLinks s.links (LinkKey.ofLink L) (Value.ofLink L)).2).count
        ((Value.ofLink L).link)
      = (iterLinks s.links).count ((Value.ofLink L).link) + 1 :=
    insertLinks_count hok' hnm
  have hzero : (iterLinks s.links).count L = 0 :=
    List.count_eq_zero.mpr hnm
  have hone : (iterLinks (insertLinks s.links (LinkKey.ofLink L) (Value.ofLink L)).2).count L
      = 1 := by
    simpa [Value.ofLink, hzero] using hcount
  cases s with
  | mk ls =>
    refine ⟨?_, ?_, hone, ?_⟩
    · simp [Links.insert, hre]
    · simp only [Links.insert, hre]
      by_cases hE : L.interfaces.toFinset = ∅
      · simp [Value.ofLink, hE]
      · simp [Value.ofLink, hE]
    · simp [Links.insert, Links.iter, hre, hone]

/-- C2 witness: a link with an empty interface list, for which re-insert is
accepted as a genuine no-op. -/
theorem reinsert_noop_state_witness :
    (Links.empty.insert ⟨"comp-a", "comp-b", "default", "wasi", "http", []⟩).1 = .ok ()
    ∧ (⟨"comp-a", "comp-b", "default", "wasi", "http", []⟩ : InterfaceLinkDefinition)
        ∉ Links.empty.iter
    ∧ (((Links.empty.insert ⟨"comp-a", "comp-b", "default", "wasi", "http", []⟩).2.insert
          ⟨"comp-a", "comp-b", "default", "wasi", "http", []⟩).1 = .ok ()
        ↔ ([] : List WitInterface).toFinset = ∅)
    ∧ ((Links.empty.insert
          ⟨"comp-a", "comp-b", "default", "wasi", "http", []⟩).2.insert
          ⟨"comp-a", "comp-b", "default", "wasi", "http", []⟩).2.iter.count
        ⟨"comp-a", "comp-b", "default", "wasi", "http", []⟩ = 1 := by
  have h := reinsert_noop_state Links.empty
    ⟨"comp-a", "comp-b", "default", "wasi", "http", []⟩ rfl (by decide)
  exact ⟨rfl, by decide, by simpa using h.2.1, h.2.2.2⟩

/-- C3: invariant I1 holds in every state reachable from the empty registry
by `insert` and `remove`: within any slot, the interface sets of stored
links are pairwise disjoint. -/
theorem reachable_disjoint (s : Links) (h : s.Reachable) : s.Disjoint := by
  induction h with
  | empty => intro p hp; simp [Links.empty] at hp
  | insert s' l _ ih => exact insertLinks_disjoint ih
  | remove s' k _ ih => exact removeLinks_disjoint ih

/-- C3 witness: a concrete reachable state satisfying I1. -/
theorem reachable_disjoint_witness :
    Links.Reachable regWithIn2 ∧ regWithIn2.Disjoint :=
  ⟨Links.Reachable.insert _ _ Links.Reachable.empty,
   reachable_disjoint _ (Links.Reachable.insert _ _ Links.Reachable.empty)⟩

theorem insert_two_aux (s : Links) (L1 L2 : InterfaceLinkDefinition)
    (hkey : LinkKey.ofLink L1 = LinkKey.ofLink L2)
    (hdisj : L1.interfaces.toFinset ∩ L2.interfaces.toFinset = ∅)
    (habs : s.lookup (LinkKey.ofLink L1) = none) :
    (s.insert L1).1 = .ok () ∧ ((s.insert L1).2.insert L2).1 = .ok ()
    ∧ L1 ∈ ((s.insert L1).2.insert L2).2.iter
    ∧ L2 ∈ ((s.insert L1).2.insert L2).2.iter := by
  have habs' : lookupLinks s.links (LinkKey.ofLink L1) = none := habs
  have hcard : ((Value.ofLink L1).interfaces ∩ (Value.ofLink L2).interfaces).card = 0 := by
    simp [Value.ofLink, hdisj]
  have e1 := insertLinks_lookup_none (Value.ofLink L1) habs'
  have e3 : insertLinks [(LinkKey.ofLink L1, [Value.ofLink L1])] (LinkKey.ofLink L2)
        (Value.ofLink L2)
      = (.ok (), [(LinkKey.ofLink L1,
          if Value.ofLink L2 ∈ ([Value.ofLink L1] : List Value) then [Value.ofLink L1]
          else [Value.ofLink L1, Value.ofLink L2])]) := by
    rw [← hkey]
    exact insertLinks_single hcard
  have e2 : insertLinks (insertLinks s.links (LinkKey.ofLink L1) (Value.ofLink L1)).2
        (LinkKey.ofLink L2) (Value.ofLink L2)
      = (.ok (), s.links ++ (insertLinks [(LinkKey.ofLink L1, [Value.ofLink L1])]
          (LinkKey.ofLink L2) (Value.ofLink L2)).2) := by
    rw [show (insertLinks s.links (LinkKey.ofLink L1) (Value.ofLink L1)).2
        = s.links ++ [(LinkKey.ofLink L1, [Value.ofLink L1])] by rw [e1]]
    rw [insertLinks_app (hkey ▸ habs')]
    rw [e3]
  cases s with
  | mk ls =>
    refine ⟨by simp [Links.insert, e1], by simp [Links.insert, e2], ?_, ?_⟩
    · simp only [Links.insert, Links.iter, e2]
      rw [e3]
      simp only [iterLinks, List.flatMap_append]
      apply List.mem_append_right
      by_cases hm : Value.ofLink L2 ∈ ([Value.ofLink L1] : List Value)
      · rw [if_pos hm]
        simp [iterLinks, Value.ofLink]
      · rw [if_neg hm]
        simp [iterLinks, Value.ofLink]
    · simp only [Links.insert, Links.iter, e2]
      rw [e3]
      simp only [iterLinks, List.flatMap_append]
      apply List.mem_append_right
      by_cases hm : Value.ofLink L2 ∈ ([Value.ofLink L1] : List Value)
      · have hL : L2 = L1 := congrArg Value.link (List.mem_singleton.mp hm)
        rw [if_pos hm]
        simp [iterLinks, Value.ofLink, hL]
      · rw [if_neg hm]
        simp [iterLinks, Value.ofLink]

/-- C4 counterexample: the claim quantifies over every state in which
neither `L1` nor `L2` is present, but a state holding a third link that
overlaps `L1` in the same slot makes the first insert fail: `regWithIn2`
holds `linkHttpIn2`, which shares the slot and the `incoming-handler`
interface with `linkHttpIn`, so inserting `linkHttpIn` is rejected even
though neither `linkHttpIn` nor `linkHttpOut` is present and the two have
equal keys and disjoint interfaces. -/
theorem disjoint_inserts_cex :
    LinkKey.ofLink linkHttpIn = LinkKey.ofLink linkHttpOut
    ∧ linkHttpIn.interfaces.toFinset ∩ linkHttpOut.interfaces.toFinset = ∅
    ∧ linkHttpIn ∉ regWithIn2.iter
    ∧ linkHttpOut ∉ regWithIn2.iter
    ∧ (regWithIn2.insert linkHttpIn).1 = .error conflictMsg := by
  refine ⟨rfl, by decide, by decide, by decide, rfl⟩

/-- C4 (amended): for all links `L1`, `L2` with equal `LinkKey` and
disjoint interface sets, inserting both in either order — starting from a
state whose registry has no slot for their common key (in particular the
empty registry) — succeeds for both inserts, and afterward both `L1` and
`L2` appear in `iter()`. -/
theorem disjoint_inserts_ok (s : Links) (L1 L2 : InterfaceLinkDefinition)
    (hkey : LinkKey.ofLink L1 = LinkKey.ofLink L2)
    (hdisj : L1.interfaces.toFinset ∩ L2.interfaces.toFinset = ∅)
    (habs : s.lookup (LinkKey.ofLink L1) = none) :
    ((s.insert L1).1 = .ok () ∧ ((s.insert L1).2.insert L2).1 = .ok ()
      ∧ L1 ∈ ((s.insert L1).2.insert L2).2.iter
      ∧ L2 ∈ ((s.insert L1).2.insert L2).2.iter)
    ∧ ((s.insert L2).1 = .ok () ∧ ((s.insert L2).2.insert L1).1 = .ok ()
      ∧ L1 ∈ ((s.insert L2).2.insert L1).2.iter
      ∧ L2 ∈ ((s.insert L2).2.insert L1).2.iter) := by
  refine ⟨insert_two_aux s L1 L2 hkey hdisj habs, ?_⟩
  have h := insert_two_aux s L2 L1 hkey.symm
    (by rw [Finset.inter_comm]; exact hdisj) (hkey ▸ habs)
  exact ⟨h.1, h.2.1, h.2.2.2, h.2.2.1⟩

/-- C4 witness: `linkHttpIn` and `linkHttpOut` into the empty registry. -/
theorem disjoint_inserts_ok_witness :
    LinkKey.ofLink linkHttpIn = LinkKey.ofLink linkHttpOut
    ∧ linkHttpIn.interfaces.toFinset ∩ linkHttpOut.interfaces.toFinset = ∅
    ∧ Links.empty.lookup (LinkKey.ofLink linkHttpIn) = none
    ∧ (Links.empty.insert linkHttpIn).1 = .ok ()
    ∧ ((Links.empty.insert linkHttpIn).2.insert linkHttpOut).1 = .ok ()
    ∧ linkHttpIn ∈ ((Links.empty.insert linkHttpIn).2.insert linkHttpOut).2.iter
    ∧ linkHttpOut ∈ ((Links.empty.insert linkHttpIn).2.insert linkHttpOut).2.iter := by
  have h := (disjoint_inserts_ok Links.empty linkHttpIn linkHttpOut rfl (by decide) rfl).1
  exact ⟨rfl, by decide, rfl, h.1, h.2.1, h.2.2.1, h.2.2.2⟩

/-- C5: `remove` accepts any key (built from a full link or from the four
identity strings alone — in the embedding both land in the 4-tuple
`LinkKey`); on a key whose slot holds N stored links it deletes all N of
them (the whole slot disappears and `iter()` shrinks by exactly N) and
returns true; on an absent key it returns false and leaves the registry
unchanged. -/
theorem remove_spec (s : Links) (k : LinkKey) (hnd : s.KeysNodup) :
    (∀ vs, s.lookup k = some vs →
        (s.remove k).1 = true
        ∧ (s.remove k).2.links = s.links.filter (fun p => p.1 ≠ k)
        ∧ (s.remove k).2.lookup k = none
        ∧ (s.remove k).2.iter.length + vs.length = s.iter.length)
    ∧ (s.lookup k = none → s.remove k = (false, s)) := by
  cases s with
  | mk ls =>
    constructor
    · intro vs hvs
      have hpres := removeLinks_present hnd hvs
      refine ⟨by simp [Links.remove, hpres], by simp [Links.remove, hpres], ?_, ?_⟩
      · show lookupLinks (removeLinks ls k).2 k = none
        rw [hpres]
        exact lookupLinks_filter_ne
      · show (iterLinks (removeLinks ls k).2).length + vs.length = (iterLinks ls).length
        rw [hpres]
        exact iterLinks_filter_length hnd hvs
    · intro habs
      have := removeLinks_lookup_none habs
      simp [Links.remove, this]

/-- C5 witness: removing by the four raw identity strings deletes the slot
stored for `linkHttpIn2`, and removing an absent key is a no-op reporting
false. -/
theorem remove_spec_witness :
    regWithIn2.KeysNodup
    ∧ regWithIn2.lookup (LinkKey.new "comp-a" "default" "wasi" "http")
        = some [Value.ofLink linkHttpIn2]
    ∧ (regWithIn2.remove (LinkKey.new "comp-a" "default" "wasi" "http")).1 = true
    ∧ (regWithIn2.remove (LinkKey.new "comp-a" "default" "wasi" "http")).2.iter.length + 1
        = regWithIn2.iter.length
    ∧ regWithIn2.lookup (LinkKey.new "comp-x" "default" "wasi" "http") = none
    ∧ regWithIn2.remove (LinkKey.new "comp-x" "default" "wasi" "http")
        = (false, regWithIn2) := by
  have hnd : regWithIn2.KeysNodup := by
    show (regWithIn2.links.map (·.1)).Nodup
    decide
  have hl : regWithIn2.lookup (LinkKey.new "comp-a" "default" "wasi" "http")
      = some [Value.ofLink linkHttpIn2] := by decide
  have habs : regWithIn2.lookup (LinkKey.new "comp-x" "default" "wasi" "http") = none := by
    decide
  have h := (remove_spec regWithIn2 (LinkKey.new "comp-a" "default" "wasi" "http") hnd).1
    _ hl
  have h2 := (remove_spec regWithIn2 (LinkKey.new "comp-x" "default" "wasi" "http") hnd).2
    habs
  exact ⟨hnd, hl, h.1, by simpa using h.2.2.2, habs, h2⟩

/-! ## Lemmas about the start-provider flow -/

theorem resolveHost_trace (env : Env) (hostHint : Option String) (ref link_name : String)
    (cs : List String) :
    (resolveHost env hostHint ref link_name cs).2 = []
    ∨ (resolveHost env hostHint ref link_name cs).2 = [.auction ref link_name] := by
  cases hostHint with
  | some h => cases hf : env.findHostId h <;> simp [resolveHost, hf]
  | none =>
    cases hlab : env.labelsToMap cs with
    | error e => simp [resolveHost, hlab]
    | ok cons =>
      cases hauc : env.auction ref link_name cons with
      | error e => simp [resolveHost, hlab, hauc]
      | ok bids =>
        cases bids with
        | nil => simp [resolveHost, hlab, hauc]
        | cons b rest =>
          cases hp : env.parseHostId b.host_id <;> simp [resolveHost, hlab, hauc, hp]

theorem dispatchAndWait_trace (env : Env) (cmd : StartProviderCommand)
    (host ref : String) (config : Option String) :
    (dispatchAndWait env cmd host ref config).2 = []
    ∨ (dispatchAndWait env cmd host ref config).2
        = [.subscribe eventKinds, .dispatch host ref cmd.link_name config]
    ∨ (dispatchAndWait env cmd host ref config).2
        = [.subscribe eventKinds, .dispatch host ref cmd.link_name config,
           .waitEvent (effectiveStartTimeout cmd.timeout_ms) host ref] := by
  cases hs : env.subscribe eventKinds with
  | error e => simp [dispatchAndWait, hs]
  | ok u =>
    cases u
    cases hdp : env.dispatch host ref cmd.link_name config with
    | error e => simp [dispatchAndWait, hs, hdp]
    | ok ack =>
      cases hacc : ack.accepted
      · simp [dispatchAndWait, hs, hdp, hacc]
      · cases hskip : cmd.skip_wait
        · cases hw : env.waitEvent (effectiveStartTimeout cmd.timeout_ms) host ref with
          | error e => simp [dispatchAndWait, hs, hdp, hacc, hskip, hw]
          | ok out => cases out <;> simp [dispatchAndWait, hs, hdp, hacc, hskip, hw]
        · simp [dispatchAndWait, hs, hdp, hacc, hskip]

theorem handle_start_provider_trace (env : Env) (cmd : StartProviderCommand) :
    (handle_start_provider env cmd).2 = []
    ∨ (handle_start_provider env cmd).2
        = [.auction (normalizeRef cmd.provider_ref) cmd.link_name]
    ∨ ∃ pre host config,
        (pre = [] ∨ pre = [.auction (normalizeRef cmd.provider_ref) cmd.link_name])
        ∧ ((handle_start_provider env cmd).2
              = pre ++ [.subscribe eventKinds,
                  .dispatch host (normalizeRef cmd.provider_ref) cmd.link_name config]
          ∨ (handle_start_provider env cmd).2
              = pre ++ [.subscribe eventKinds,
                  .dispatch host (normalizeRef cmd.provider_ref) cmd.link_name config,
                  .waitEvent (effectiveStartTimeout cmd.timeout_ms) host
                    (normalizeRef cmd.provider_ref)]) := by
  cases hc : env.connect with
  | error e => simp [handle_start_provider, hc]
  | ok u =>
    cases u
    cases hres : resolveHost env cmd.host_id (normalizeRef cmd.provider_ref) cmd.link_name
        (cmd.constraints.getD []) with
    | mk r t =>
      have htr := resolveHost_trace env cmd.host_id (normalizeRef cmd.provider_ref)
        cmd.link_name (cmd.constraints.getD [])
      rw [hres] at htr
      replace htr : t = []
          ∨ t = [Action.auction (normalizeRef cmd.provider_ref) cmd.link_name] := htr
      cases r with
      | error e =>
        rcases htr with rfl | rfl <;> simp [handle_start_provider, hc, hres]
      | ok host =>
        cases hcfg : getConfig env cmd.config_json with
        | error e =>
          rcases htr with rfl | rfl <;> simp [handle_start_provider, hc, hres, hcfg]
        | ok config =>
          have heq : handle_start_provider env cmd
              = ((dispatchAndWait env cmd host (normalizeRef cmd.provider_ref) config).1,
                 t ++ (dispatchAndWait env cmd host (normalizeRef cmd.provider_ref) config).2) := by
            simp [handle_start_provider, hc, hres, hcfg]
          have hdw := dispatchAndWait_trace env cmd host (normalizeRef cmd.provider_ref) config
          rcases htr with rfl | rfl <;> rcases hdw with h2 | h2 | h2
          · left
            simp [heq, h2]
          · right; right
            exact ⟨[], host, config, Or.inl rfl, Or.inl (by simp [heq, h2])⟩
          · right; right
            exact ⟨[], host, config, Or.inl rfl, Or.inr (by simp [heq, h2])⟩
          · right; left
            simp [heq, h2]
          · right; right
            exact ⟨[.auction (normalizeRef cmd.provider_ref) cmd.link_name], host, config,
              Or.inr rfl, Or.inl (by simp [heq, h2])⟩
          · right; right
            exact ⟨[.auction (normalizeRef cmd.provider_ref) cmd.link_name], host, config,
              Or.inr rfl, Or.inr (by simp [heq, h2])⟩

/-! ## Claim theorems for the start-provider flow -/

/-- C6: in every execution, the event-stream subscription — filtered to the
provider started/failed event kinds — is established before the start
command is dispatched: the trace never contains a dispatch while no
subscription is open, and every subscription in the trace carries exactly
the two provider event kinds. -/
theorem subscribe_before_dispatch (env : Env) (cmd : StartProviderCommand) :
    subOpenOk false (handle_start_provider env cmd).2 = true
    ∧ subsKindsOk eventKinds (handle_start_provider env cmd).2 = true := by
  rcases handle_start_provider_trace env cmd with h | h | ⟨pre, host, config, hpre, hh⟩
  · simp [h, subOpenOk, subsKindsOk]
  · simp [h, subOpenOk, subsKindsOk]
  · rcases hpre with rfl | rfl <;> rcases hh with h | h <;>
      simp [h, subOpenOk, subsKindsOk]

/-- C6 witness at a concrete environment and command. -/
theorem subscribe_before_dispatch_witness :
    subOpenOk false (handle_start_provider envW cmdW).2 = true
    ∧ subsKindsOk eventKinds (handle_start_provider envW cmdW).2 = true :=
  subscribe_before_dispatch envW cmdW

/-- C7: a reference beginning with the path separator is rewritten exactly
once — before host resolution — to the same string prefixed with the
local-file scheme; any other reference is unchanged; and every action in
the trace that carries an artifact reference (auction, dispatch, event
wait) carries the identical normalized value. -/
theorem ref_normalized (env : Env) (cmd : StartProviderCommand) :
    (strStartsWith cmd.provider_ref "/" = true →
        normalizeRef cmd.provider_ref = "file://" ++ cmd.provider_ref)
    ∧ (strStartsWith cmd.provider_ref "/" = false →
        normalizeRef cmd.provider_ref = cmd.provider_ref)
    ∧ refsOk (normalizeRef cmd.provider_ref) (handle_start_provider env cmd).2 = true := by
  refine ⟨fun h => by simp [normalizeRef, h], fun h => by simp [normalizeRef, h], ?_⟩
  rcases handle_start_provider_trace env cmd with h | h | ⟨pre, host, config, hpre, hh⟩
  · simp [h, refsOk]
  · simp [h, refsOk, Action.refOf]
  · rcases hpre with rfl | rfl <;> rcases hh with h | h <;>
      simp [h, refsOk, Action.refOf]

/-- C7 witness: the filesystem reference of `cmdW` is normalized and used
uniformly. -/
theorem ref_normalized_witness :
    strStartsWith cmdW.provider_ref "/" = true
    ∧ normalizeRef cmdW.provider_ref = "file://" ++ cmdW.provider_ref
    ∧ refsOk (normalizeRef cmdW.provider_ref) (handle_start_provider envW cmdW).2 = true := by
  have h := ref_normalized envW cmdW
  exact ⟨by decide, h.1 (by decide), h.2.2⟩

/-- C8: with no host hint, an empty auction fails the operation with the
"no suitable hosts" error before any dispatch occurs (the trace contains
zero dispatches); with a non-empty auction, the host parsed from bid 0 is
the chosen host, and every dispatch in the trace targets it. -/
theorem auction_bids (env : Env) (cmd : StartProviderCommand)
    (cons : List (String × String))
    (hhost : cmd.host_id = none)
    (hconn : env.connect = .ok ())
    (hlab : env.labelsToMap (cmd.constraints.getD []) = .ok cons) :
    (env.auction (normalizeRef cmd.provider_ref) cmd.link_name cons = .ok [] →
        (handle_start_provider env cmd).1
          = .error ("No suitable hosts found for provider " ++ normalizeRef cmd.provider_ref)
        ∧ countDispatch (handle_start_provider env cmd).2 = 0)
    ∧ (∀ b bs h, env.auction (normalizeRef cmd.provider_ref) cmd.link_name cons = .ok (b :: bs)
        → env.parseHostId b.host_id = .ok h
        → (resolveHost env cmd.host_id (normalizeRef cmd.provider_ref) cmd.link_name
            (cmd.constraints.getD [])).1 = .ok h
          ∧ dispatchHostsOk h (handle_start_provider env cmd).2 = true) := by
  constructor
  · intro hauc
    have hres : resolveHost env cmd.host_id (normalizeRef cmd.provider_ref) cmd.link_name
        (cmd.constraints.getD [])
        = (.error ("No suitable hosts found for provider " ++ normalizeRef cmd.provider_ref),
           [.auction (normalizeRef cmd.provider_ref) cmd.link_name]) := by
      simp [resolveHost, hhost, hlab, hauc]
    constructor
    · simp [handle_start_provider, hconn, hres]
    · simp [handle_start_provider, hconn, hres, countDispatch, Action.isDispatch]
  · intro b bs h hauc hparse
    have hres : resolveHost env cmd.host_id (normalizeRef cmd.provider_ref) cmd.link_name
        (cmd.constraints.getD [])
        = (.ok h, [.auction (normalizeRef cmd.provider_ref) cmd.link_name]) := by
      simp [resolveHost, hhost, hlab, hauc, hparse]
    refine ⟨by simp [hres], ?_⟩
    cases hcfg : getConfig env cmd.config_json with
    | error e =>
      have heq : handle_start_provider env cmd
          = (.error e, [.auction (normalizeRef cmd.provider_ref) cmd.link_name]) := by
        simp [handle_start_provider, hconn, hres, hcfg]
      simp [heq, dispatchHostsOk]
    | ok config =>
      have heq : handle_start_provider env cmd
          = ((dispatchAndWait env cmd h (normalizeRef cmd.provider_ref) config).1,
             [.auction (normalizeRef cmd.provider_ref) cmd.link_name]
               ++ (dispatchAndWait env cmd h (normalizeRef cmd.provider_ref) config).2) := by
        simp [handle_start_provider, hconn, hres, hcfg]
      rcases dispatchAndWait_trace env cmd h (normalizeRef cmd.provider_ref) config
        with h2 | h2 | h2 <;> simp [heq, h2, dispatchHostsOk]

/-- C8 witness: an empty auction in `envA` fails without dispatch; a
one-bid auction in `envW` dispatches only to the parsed bid-0 host. -/
theorem auction_bids_witness :
    cmdW.host_id = none
    ∧ envA.auction (normalizeRef cmdW.provider_ref) cmdW.link_name [] = .ok []
    ∧ (handle_start_provider envA cmdW).1
        = .error ("No suitable hosts found for provider " ++ normalizeRef cmdW.provider_ref)
    ∧ countDispatch (handle_start_provider envA cmdW).2 = 0
    ∧ envW.auction (normalizeRef cmdW.provider_ref) cmdW.link_name [] = .ok [⟨"HOSTA"⟩]
    ∧ (resolveHost envW cmdW.host_id (normalizeRef cmdW.provider_ref) cmdW.link_name
        (cmdW.constraints.getD [])).1 = .ok "HOSTA"
    ∧ dispatchHostsOk "HOSTA" (handle_start_provider envW cmdW).2 = true := by
  have h1 := (auction_bids envA cmdW [] rfl rfl rfl).1 rfl
  have h2 := (auction_bids envW cmdW [] rfl rfl rfl).2 ⟨"HOSTA"⟩ [] "HOSTA" rfl rfl
  exact ⟨rfl, rfl, h1.1, h1.2, rfl, h2.1, h2.2⟩

/-- C9: when the synchronous ack is not accepted, the operation fails
immediately with an error carrying the ack's error message, and the
confirmation wait is never entered (the trace contains no event wait),
regardless of `skip_wait`. -/
theorem ack_rejected_no_wait (env : Env) (cmd : StartProviderCommand) (host : String)
    (t : List Action) (config : Option String) (ack : Ack)
    (hconn : env.connect = .ok ())
    (hres : resolveHost env cmd.host_id (normalizeRef cmd.provider_ref) cmd.link_name
        (cmd.constraints.getD []) = (.ok host, t))
    (hcfg : getConfig env cmd.config_json = .ok config)
    (hsub : env.subscribe eventKinds = .ok ())
    (hdisp : env.dispatch host (normalizeRef cmd.provider_ref) cmd.link_name config = .ok ack)
    (hacc : ack.accepted = false) :
    (handle_start_provider env cmd).1
      = .error ("Start provider ack not accepted: " ++ ack.error)
    ∧ countWait (handle_start_provider env cmd).2 = 0 := by
  have hdw : dispatchAndWait env cmd host (normalizeRef cmd.provider_ref) config
      = (.error ("Start provider ack not accepted: " ++ ack.error),
         [.subscribe eventKinds,
          .dispatch host (normalizeRef cmd.provider_ref) cmd.link_name config]) := by
    simp [dispatchAndWait, hsub, hdisp, hacc]
  have heq : handle_start_provider env cmd
      = (.error ("Start provider ack not accepted: " ++ ack.error),
         t ++ [.subscribe eventKinds,
           .dispatch host (normalizeRef cmd.provider_ref) cmd.link_name config]) := by
    simp [handle_start_provider, hconn, hres, hcfg, hdw]
  have htr := resolveHost_trace env cmd.host_id (normalizeRef cmd.provider_ref)
    cmd.link_name (cmd.constraints.getD [])
  rw [hres] at htr
  rcases htr with rfl | rfl <;>
    simp [heq, countWait, Action.isWait]

/-- C9 witness: `envR`'s dispatch is rejected with a concrete reason. -/
theorem ack_rejected_no_wait_witness :
    envR.dispatch "HOSTA" (normalizeRef cmdW.provider_ref) cmdW.link_name none
      = .ok ⟨false, "insufficient resources"⟩
    ∧ (handle_start_provider envR cmdW).1
      = .error ("Start provider ack not accepted: " ++ "insufficient resources")
    ∧ countWait (handle_start_provider envR cmdW).2 = 0 := by
  have h := ack_rejected_no_wait envR cmdW "HOSTA"
    [.auction (normalizeRef cmdW.provider_ref) cmdW.link_name] none
    ⟨false, "insufficient resources"⟩ rfl rfl rfl rfl rfl rfl
  exact ⟨rfl, h.1, h.2⟩

/-- C10: a caller timeout exactly equal to the default NATS timeout is
silently replaced by the longer command-specific default (provider start
and actor scale respectively); any other value is used unchanged; hence
the effective confirmation deadline can never equal the default NATS
timeout; and the event wait in the start flow uses exactly the effective
start timeout. -/
theorem timeout_override (env : Env) (cmd : StartProviderCommand) (t : Nat) :
    (t = DEFAULT_NATS_TIMEOUT_MS →
        effectiveStartTimeout t = DEFAULT_START_PROVIDER_TIMEOUT_MS
        ∧ effectiveScaleTimeout t = DEFAULT_SCALE_ACTOR_TIMEOUT_MS)
    ∧ (t ≠ DEFAULT_NATS_TIMEOUT_MS →
        effectiveStartTimeout t = t ∧ effectiveScaleTimeout t = t)
    ∧ effectiveStartTimeout t ≠ DEFAULT_NATS_TIMEOUT_MS
    ∧ effectiveScaleTimeout t ≠ DEFAULT_NATS_TIMEOUT_MS
    ∧ DEFAULT_NATS_TIMEOUT_MS < DEFAULT_START_PROVIDER_TIMEOUT_MS
    ∧ DEFAULT_NATS_TIMEOUT_MS < DEFAULT_SCALE_ACTOR_TIMEOUT_MS
    ∧ waitTimeoutsOk (effectiveStartTimeout cmd.timeout_ms)
        (handle_start_provider env cmd).2 = true := by
  refine ⟨fun ht => by simp [effectiveStartTimeout, effectiveScaleTimeout, ht],
    fun ht => by simp [effectiveStartTimeout, effectiveScaleTimeout, ht],
    ?_, ?_, by decide, by decide, ?_⟩
  · by_cases ht : t = DEFAULT_NATS_TIMEOUT_MS
    · simp [effectiveStartTimeout, ht]
      decide
    · simp [effectiveStartTimeout, ht]
  · by_cases ht : t = DEFAULT_NATS_TIMEOUT_MS
    · simp [effectiveScaleTimeout, ht]
      decide
    · simp [effectiveScaleTimeout, ht]
  · rcases handle_start_provider_trace env cmd with h | h | ⟨pre, host, config, hpre, hh⟩
    · simp [h, waitTimeoutsOk]
    · simp [h, waitTimeoutsOk]
    · rcases hpre with rfl | rfl <;> rcases hh with h | h <;>
        simp [h, waitTimeoutsOk]

/-- C10 witness: the default NATS timeout is replaced, another value is
kept, and the concrete run waits with the effective start timeout. -/
theorem timeout_override_witness :
    effectiveStartTimeout DEFAULT_NATS_TIMEOUT_MS = DEFAULT_START_PROVIDER_TIMEOUT_MS
    ∧ effectiveScaleTimeout DEFAULT_NATS_TIMEOUT_MS = DEFAULT_SCALE_ACTOR_TIMEOUT_MS
    ∧ effectiveStartTimeout 7777 = 7777
    ∧ effectiveStartTimeout DEFAULT_NATS_TIMEOUT_MS ≠ DEFAULT_NATS_TIMEOUT_MS
    ∧ waitTimeoutsOk (effectiveStartTimeout cmdW.timeout_ms)
        (handle_start_provider envW cmdW).2 = true := by
  have h1 := timeout_override envW cmdW DEFAULT_NATS_TIMEOUT_MS
  have h2 := timeout_override envW cmdW 7777
  exact ⟨(h1.1 rfl).1, (h1.1 rfl).2, (h2.2.1 (by decide)).1, h1.2.2.1,
    h1.2.2.2.2.2.2⟩

end Wasmcloud
